import Mathlib

/-!
Shallow embedding of the job-orchestration and result-parsing core of
`dbt/adapters/spark_cde/cdeapisession.py` (dbt-spark-cde).

Python strings are modelled as `List Char` (`PyStr`); Python lists as Lean
lists; the mutable cursor row store as explicit state (`Option (List Row)`);
fallible Python code (exceptions) as `Except`, where the error payload
records the state the in-place mutation left behind at the point the
exception was raised.  Network calls made by `CDEApiCursor.execute` are
modelled by an environment (the sequence of polled statuses, the log text,
and success flags for the two cleanup calls) together with a trace of the
API calls attempted.
-/

namespace SparkCDE

/-- Python `str` modelled as a list of characters. -/
abbrev PyStr := List Char

/-- Python `str.strip()`: drop leading and trailing whitespace
(ASCII whitespace model). -/
def pyStrip (l : PyStr) : PyStr :=
  ((l.dropWhile Char.isWhitespace).reverse.dropWhile Char.isWhitespace).reverse

/-- Python `str.split("|")`: split on the pipe character; like Python,
the empty string splits to one empty fragment. -/
def splitPipe : PyStr → List PyStr
  | [] => [[]]
  | c :: rest =>
    if c = '|' then [] :: splitPipe rest
    else
      match splitPipe rest with
      | h :: t => (c :: h) :: t
      | [] => [[c]]

/-- Python `line.startswith("+-")`. -/
def startsWithPM : PyStr → Bool
  | '+' :: '-' :: _ => true
  | _ => false

/-- The separator-line test used by `parse_query_result`:
`line.strip().startswith("+-")`. -/
def isSepLine (l : PyStr) : Bool := startsWithPM (pyStrip l)

/-- The cell extraction applied to a header or data line in
`parse_query_result`: split on `|`, drop empty/whitespace-only fragments,
strip each remaining fragment. -/
def splitCells (l : PyStr) : List PyStr :=
  ((splitPipe l).filter (fun x => !(pyStrip x).isEmpty)).map pyStrip

/-- Column type tag: the `"string"` / `"number"` / `"boolean"` strings the
source stores in the schema dict. -/
inductive ColType
  | string
  | number
  | boolean
deriving DecidableEq

/-- One schema entry, `{"name": ..., "type": ..., "nullable": False}`. -/
structure SchemaCol where
  name : PyStr
  type : ColType
  nullable : Bool
deriving DecidableEq

abbrev Schema := List SchemaCol

/-- A typed cell value as left in the Python row list: a string cell, a
`float(...)` result (modelled as a rational), or a boolean. -/
inductive Value
  | str (s : PyStr)
  | num (q : ℚ)
  | bool (b : Bool)
deriving DecidableEq

abbrev Row := List Value

/-- Digit-string to natural number value. -/
def digitsToNat (l : List Char) : ℕ :=
  l.foldl (fun a c => a * 10 + (c.toNat - Char.toNat '0')) 0

/-- Unsigned part of Python `float(s)` on the decimal literals that occur in
parsed table cells: digits with an optional single decimal point (no
exponent / inf / nan, which cannot reach this code path from the table
parser's stripped cells). `none` models `ValueError`. -/
def pyFloatCore (s : PyStr) : Option ℚ :=
  let ip := s.takeWhile Char.isDigit
  match s.dropWhile Char.isDigit with
  | [] => if ip.isEmpty then none else some (digitsToNat ip)
  | c :: frac =>
    if c = '.' && frac.all Char.isDigit && !(ip.isEmpty && frac.isEmpty) then
      some ((digitsToNat ip : ℚ) + (digitsToNat frac : ℚ) / (10 : ℚ) ^ frac.length)
    else none

/-- Python `float(s)` (shallow model, see `pyFloatCore`); an optional sign
is allowed. `none` models `ValueError`. -/
def pyFloat : PyStr → Option ℚ
  | '-' :: rest => (pyFloatCore rest).map (fun q => -q)
  | '+' :: rest => pyFloatCore rest
  | s => pyFloatCore s

/-- `is_number = lambda x: x.isnumeric()` — Python `str.isnumeric` on the
ASCII strings in scope: non-empty and all digit characters. -/
def is_number (c : PyStr) : Bool := !c.isEmpty && c.all Char.isDigit

/-- `is_logical`: exact match against `"true"`, `"false"`, `"True"`,
`"False"`. -/
def is_logical (c : PyStr) : Bool :=
  c == "true".toList || c == "false".toList || c == "True".toList || c == "False".toList

/-- `is_true`: exact match against `"true"` or `"True"`. -/
def is_true (c : PyStr) : Bool := c == "true".toList || c == "True".toList

/-- `get_type`: classify a first-row cell; numeric wins over boolean, and
everything else is a string. -/
def get_type (c : PyStr) : ColType :=
  if is_number c then .number
  else if is_logical c then .boolean
  else .string

/-- `convert_map[col_type](col)`: convert one cell according to the column
type; `none` models the `ValueError` raised by `float` on a non-numeric
string. Boolean and string conversions never fail. -/
def convert_map : ColType → PyStr → Option Value
  | .number, c => (pyFloat c).map Value.num
  | .boolean, c => some (Value.bool (is_true c))
  | .string, c => some (Value.str c)

/-- `convert_type(row, col_types)`: convert the cells of one row in place.
On success returns the fully converted row; on an exception (a failed
`float` conversion, or `col_types[idx]` running out while row cells remain,
an `IndexError`) returns the row as the in-place mutation left it: the
already-converted prefix followed by the untouched original cells. -/
def convert_type : List PyStr → List ColType → Except (List Value) (List Value)
  | [], _ => .ok []
  | c :: cs, [] => .error ((c :: cs).map Value.str)
  | c :: cs, t :: ts =>
    match convert_map t c with
    | none => .error ((c :: cs).map Value.str)
    | some v =>
      match convert_type cs ts with
      | .ok vs => .ok (v :: vs)
      | .error pvs => .error (v :: pvs)

/-- The `for row in rows: convert_type(row, col_types)` loop.  On an
exception in some row, the rows before it are fully converted, that row is
partially converted, and the rows after it are untouched — exactly the
state the Python in-place mutation leaves behind. -/
def convert_rows : List (List PyStr) → List ColType → Except (List Row) (List Row)
  | [], _ => .ok []
  | r :: rs, ts =>
    match convert_type r ts with
    | .error pv => .error (pv :: rs.map (fun x => x.map Value.str))
    | .ok v =>
      match convert_rows rs ts with
      | .ok vs => .ok (v :: vs)
      | .error pvs => .error (v :: pvs)

/-- Specification-side description of the state the row-conversion loop
leaves behind when a conversion raises: rows before the failing row fully
converted, the failing row partially converted, rows after it untouched.
Used to characterise the `.error` payload of `convert_rows`. -/
def convertRowsUntilError : List (List PyStr) → List ColType → List Row
  | [], _ => []
  | r :: rs, ts =>
    match convert_type r ts with
    | .ok v => v :: convertRowsUntilError rs ts
    | .error pv => pv :: rs.map (fun x => x.map Value.str)

/-- Write the inferred column types back into the schema
(`schema[idx]["type"] = col_types[idx]`).  The caller guarantees the two
lists have equal length (the `len(schema) != len(first_row)` guard), so the
`[] , _ :: _` case is unreachable. -/
def record_types : Schema → List ColType → Schema
  | col :: s, t :: ts => { col with type := t } :: record_types s ts
  | s, [] => s
  | [], _ :: _ => []

/-- `CDEApiConnection.extract_datatypes(schema, rows)`.  `.ok` is a normal
return; `.error` models an exception escaping, carrying the schema (never
yet mutated at that point — the type write-back happens after the row
loop) and the partially converted rows the in-place mutation left behind.
The `rows = []` case (an `IndexError` from `rows[0]`) is unreachable from
`parse_query_result`, which guards with `len(rows) > 0`. -/
def extract_datatypes (schema : Schema) (rows : List (List PyStr)) :
    Except (Schema × List Row) (Schema × List Row) :=
  match rows with
  | [] => .error (schema, [])
  | firstRow :: _ =>
    if schema.length ≠ firstRow.length then
      .ok (schema, rows.map (fun r => r.map Value.str))
    else
      match convert_rows rows (firstRow.map get_type) with
      | .ok vrows => .ok (record_types schema (firstRow.map get_type), vrows)
      | .error pvs => .error (schema, pvs)

/-- The `try: extract_datatypes ... except Exception: logger.error(...)`
block of `parse_query_result`: an exception is swallowed and the
(partially mutated) schema and rows are what the caller keeps. -/
def inferTypes (schema : Schema) (rows : List (List PyStr)) : Schema × List Row :=
  match extract_datatypes schema rows with
  | .ok sr => sr
  | .error sr => sr

/-- The data-row loop of `parse_query_result`: strip each line, stop at a
separator line (or end of input), otherwise extract the cells. -/
def collectRows : List PyStr → List (List PyStr)
  | [] => []
  | l :: ls =>
    let d := pyStrip l
    if startsWithPM d then []
    else splitCells d :: collectRows ls

/-- The schema built from the header line: split on `|`, discard
empty/whitespace-only fragments, each remaining fragment stripped becomes a
provisional `string`, non-nullable column. -/
def headerSchema (l : PyStr) : Schema :=
  ((splitPipe l).filter (fun x => !(pyStrip x).isEmpty)).map
    (fun x => { name := pyStrip x, type := ColType.string, nullable := false })

/-- `CDEApiConnection.parse_query_result(res_lines)`.  Mirrors the source:
the 1-based `line_number` after the `break` equals the 0-based separator
index plus one, so "separator is the last line" and "no separator found"
both hit the `line_number == len(res_lines)` early return; the header is
the line after the separator, data lines start two lines after the header,
and type inference runs only when at least one data row was parsed, its
exceptions swallowed (`inferTypes`). -/
def parse_query_result (res_lines : List PyStr) : Schema × List Row :=
  match res_lines.findIdx? isSepLine with
  | none => ([], [])
  | some k =>
    if k + 1 = res_lines.length then ([], [])
    else if (headerSchema (res_lines.getD (k + 1) [])).length = 0 then
      (headerSchema (res_lines.getD (k + 1) []), [])
    else if 0 < (collectRows (res_lines.drop (k + 3))).length then
      inferTypes (headerSchema (res_lines.getD (k + 1) []))
        (collectRows (res_lines.drop (k + 3)))
    else (headerSchema (res_lines.getD (k + 1) []), [])

/-! ### The `CDEApiCursor.execute` job-orchestration state machine

The network environment is abstracted as: the sequence of statuses the
repeated `get_job_run_status` calls return (`statuses i` is the result of
the `i`-th poll), the stdout log lines a successful run yields, and a
success flag for each of the two cleanup calls (`delete_job`,
`delete_resource`); every other network call is assumed to return normally
(transport failures on them simply abort `execute`, which no claim here is
about).  The trace records each API call attempted, in order.  The
unbounded `while` loop is embedded with an explicit fuel parameter; the
theorems hold for every sufficiently large fuel. -/

/-- Poll interval of the status loop, seconds (`DEFAULT_POLL_WAIT`). -/
def DEFAULT_POLL_WAIT : ℕ := 30

/-- Poll ceiling, seconds (`DEFAULT_CDE_JOB_TIMEOUT`). -/
def DEFAULT_CDE_JOB_TIMEOUT : ℕ := 900

/-- `CDEApiConnection.JOB_STATUS["succeeded"]`. -/
def jsSucceeded : PyStr := "succeeded".toList

/-- `CDEApiConnection.JOB_STATUS["failed"]`. -/
def jsFailed : PyStr := "failed".toList

/-- One API call attempted by `execute` against `CDEApiConnection`. -/
inductive ApiCall
  | createResource
  | uploadResource
  | submitJob
  | runJob
  | getJobRunStatus
  | getJobOutput
  | deleteJob
  | deleteResource
deriving DecidableEq

/-- Number of occurrences of one call in a trace. -/
def countCall (c : ApiCall) : List ApiCall → ℕ
  | [] => 0
  | x :: xs => (if x = c then 1 else 0) + countCall c xs

/-- Result of the status-polling `while` loop (step 5 of `execute`). -/
inductive PollResult
  | succeeded
  | jobFailed (payload : PyStr)
  | timedOut
  | fuelOut
deriving DecidableEq

/-- The `while job_status["status"] != "succeeded"` loop of `execute`,
with the API calls it makes.  `i` is the index of the most recent poll
(whose result is `statuses i`), `t` is `total_time_spent_in_get_job_status`.
Each iteration sleeps, accumulates the poll interval, re-polls, raises on a
`failed` status (after a diagnostic `get_job_output` call), then raises a
timeout once the accumulated wait reaches the ceiling — in that order, so
the timeout check runs even when the re-poll just returned `succeeded`. -/
def pollLoop (statuses : ℕ → PyStr) : ℕ → ℕ → ℕ → PollResult × List ApiCall
  | 0, _, _ => (.fuelOut, [])
  | fuel + 1, i, t =>
    if statuses i = jsSucceeded then (.succeeded, [])
    else
      let t' := t + DEFAULT_POLL_WAIT
      let s' := statuses (i + 1)
      if s' = jsFailed then (.jobFailed s', [.getJobRunStatus, .getJobOutput])
      else if DEFAULT_CDE_JOB_TIMEOUT ≤ t' then (.timedOut, [.getJobRunStatus])
      else
        let (r, cs) := pollLoop statuses fuel (i + 1) t'
        (r, .getJobRunStatus :: cs)

/-- Outcome of one `CDEApiCursor.execute` call: normal return, the
database error raised on a `failed` status (carrying the status payload),
the `RPCTimeoutException` (carrying the ceiling), an exception escaping
from a cleanup call, or fuel exhaustion of the embedding. -/
inductive ExecOutcome
  | success
  | jobFailed (payload : PyStr)
  | timedOut (ceiling : ℕ)
  | cleanupError
  | fuelOut
deriving DecidableEq

/-- State after one `CDEApiCursor.execute` call: its outcome, the trace of
API calls attempted, and the cursor's `_schema` / `_rows` fields
(`none` when the assignment at step 6 was never reached). -/
structure ExecResult where
  outcome : ExecOutcome
  calls : List ApiCall
  resultSet : Option (Schema × List Row)
deriving DecidableEq

/-- `CDEApiCursor.execute`: create the resource namespace, upload the SQL
and wrapper resources, submit and run the job, poll to a terminal state,
then — only on the success path, after storing the parsed result into the
cursor — delete the job and delete the resource namespace.  A raised
job-failure or timeout error propagates immediately: the source has no
`try/finally`, so the two cleanup calls are skipped on those paths, and an
exception raised by `delete_job` skips `delete_resource` and escapes. -/
def executeRun (statuses : ℕ → PyStr) (logLines : List PyStr)
    (djOk drOk : Bool) (fuel : ℕ) : ExecResult :=
  let pre : List ApiCall :=
    [.createResource, .uploadResource, .uploadResource, .submitJob, .runJob,
     .getJobRunStatus]
  match pollLoop statuses fuel 0 0 with
  | (.jobFailed p, cs) => ⟨.jobFailed p, pre ++ cs, none⟩
  | (.timedOut, cs) => ⟨.timedOut DEFAULT_CDE_JOB_TIMEOUT, pre ++ cs, none⟩
  | (.fuelOut, cs) => ⟨.fuelOut, pre ++ cs, none⟩
  | (.succeeded, cs) =>
    let parsed := parse_query_result logLines
    let calls1 := pre ++ cs ++ [.getJobOutput, .deleteJob]
    if djOk then
      if drOk then ⟨.success, calls1 ++ [.deleteResource], some parsed⟩
      else ⟨.cleanupError, calls1 ++ [.deleteResource], some parsed⟩
    else ⟨.cleanupError, calls1, some parsed⟩

/-! ### The result cursor (`fetchone` / `fetchall`)

The cursor's `_rows` field is the state: `none` models `_rows is None`
(after `close`), `some rows` the live list.  `fetchone` pops the first
element; `fetchall` returns the live list (in Python the very same object
the pops mutate), modelled here as reading the current state. -/

/-- `CDEApiCursor.fetchone`: pop and return the first row when the store
is non-empty, otherwise return `None` and leave the store unchanged. -/
def fetchone : Option (List Row) → Option Row × Option (List Row)
  | none => (none, none)
  | some [] => (none, some [])
  | some (r :: rs) => (some r, some rs)

/-- `CDEApiCursor.fetchall`: return the row store as it currently is. -/
def fetchall (st : Option (List Row)) : Option (List Row) := st

/-- The cursor state after `k` successive `fetchone` calls. -/
def fetchState (st : Option (List Row)) : ℕ → Option (List Row)
  | 0 => st
  | k + 1 => fetchState (fetchone st).2 k

/-! ### The connection wrapper (`execute` preprocessing and `_fix_binding`) -/

/-- Python `sql.strip().endswith(";")`. -/
def endsSemi (l : PyStr) : Bool :=
  match l.getLast? with
  | some c => c = ';'
  | none => false

/-- The SQL preprocessing at the top of
`CDEApiSessionConnectionWrapper.execute`: when the stripped text ends with
a semicolon, replace the SQL by the stripped text minus its last
character; otherwise pass the text through unchanged. -/
def wrapper_execute_sql (sql : PyStr) : PyStr :=
  if endsSemi (pyStrip sql) then (pyStrip sql).dropLast else sql

/-- A Python binding value as fed to `_fix_binding`: ints, floats, bools,
datetimes and strings. -/
inductive PyVal
  | pyInt (n : ℤ)
  | pyFloatV (q : ℚ)
  | pyBool (b : Bool)
  | pyDatetime (year month day hour minute second microsecond : ℕ)
  | pyString (s : PyStr)
deriving DecidableEq

/-- The single-quote character, `'`. -/
def squote : Char := Char.ofNat 39

/-- Zero-padded decimal rendering of width `w` (`strftime` field). -/
def padNum (w n : ℕ) : PyStr :=
  let d := Nat.toDigits 10 n
  List.replicate (w - d.length) '0' ++ d

/-- `value.strftime('%Y-%m-%d %H:%M:%S.%f')` for the datetime model. -/
def strftimeFull (y mo d h mi s us : ℕ) : PyStr :=
  padNum 4 y ++ '-' :: padNum 2 mo ++ '-' :: padNum 2 d ++ ' ' :: padNum 2 h
    ++ ':' :: padNum 2 mi ++ ':' :: padNum 2 s ++ '.' :: padNum 6 us

/-- Python `f"'{x}'"`. -/
def quoted (s : PyStr) : PyStr := squote :: s ++ [squote]

/-- `CDEApiSessionConnectionWrapper._fix_binding`.  The first branch is
`isinstance(value, NUMBERS)` with `NUMBERS = DECIMALS + (int, float)`;
Python `bool` is a subclass of `int`, so booleans take this branch and
`float(True) = 1.0`, `float(False) = 0.0`.  Datetimes render as a quoted
`'%Y-%m-%d %H:%M:%S.%f'[:-3]` literal; everything else as a quoted text
literal of its printed form. -/
def fix_binding : PyVal → PyVal
  | .pyInt n => .pyFloatV (n : ℚ)
  | .pyFloatV q => .pyFloatV q
  | .pyBool b => .pyFloatV (if b then 1 else 0)
  | .pyDatetime y mo d h mi s us =>
      .pyString (quoted ((strftimeFull y mo d h mi s us).dropLast.dropLast.dropLast))
  | .pyString s => .pyString (quoted s)

/-! ### Helper lemmas -/

theorem convert_type_ok_length {r : List PyStr} {ts : List ColType} {v : List Value}
    (h : convert_type r ts = .ok v) : r.length = v.length := by
  induction r generalizing ts v with
  | nil =>
    rw [convert_type] at h
    cases h
    rfl
  | cons c cs ih =>
    cases ts with
    | nil => rw [convert_type] at h; cases h
    | cons t ts =>
      rw [convert_type] at h
      rcases hm : convert_map t c with _ | v'
      · rw [hm] at h; cases h
      · rw [hm] at h
        rcases hr : convert_type cs ts with pvs | vs
        · rw [hr] at h; cases h
        · rw [hr] at h
          cases h
          simpa using ih hr

theorem convert_type_error_length {r : List PyStr} {ts : List ColType} {v : List Value}
    (h : convert_type r ts = .error v) : r.length = v.length := by
  induction r generalizing ts v with
  | nil => rw [convert_type] at h; cases h
  | cons c cs ih =>
    cases ts with
    | nil =>
      rw [convert_type] at h
      cases h
      simp
    | cons t ts =>
      rw [convert_type] at h
      rcases hm : convert_map t c with _ | v'
      · rw [hm] at h
        cases h
        simp
      · rw [hm] at h
        rcases hr : convert_type cs ts with pvs | vs
        · rw [hr] at h
          cases h
          simpa using ih hr
        · rw [hr] at h; cases h

theorem mapStr_length_forall₂ (rs : List (List PyStr)) :
    List.Forall₂ (fun (r : List PyStr) (v : Row) => r.length = v.length) rs
      (rs.map (fun x => x.map Value.str)) := by
  rw [List.forall₂_map_right_iff]
  exact List.forall₂_same.mpr (fun a _ => (List.length_map a Value.str).symm)

theorem convertRowsUntilError_forall₂ (rs : List (List PyStr)) (ts : List ColType) :
    List.Forall₂ (fun (r : List PyStr) (v : Row) => r.length = v.length) rs
      (convertRowsUntilError rs ts) := by
  induction rs with
  | nil => exact List.Forall₂.nil
  | cons r rs ih =>
    rw [convertRowsUntilError]
    rcases hc : convert_type r ts with pv | v
    · exact List.Forall₂.cons (convert_type_error_length hc) (mapStr_length_forall₂ rs)
    · exact List.Forall₂.cons (convert_type_ok_length hc) ih

theorem convert_rows_ok_untilError {rs : List (List PyStr)} {ts : List ColType}
    {vs : List Row} (h : convert_rows rs ts = .ok vs) :
    vs = convertRowsUntilError rs ts := by
  induction rs generalizing vs with
  | nil => rw [convert_rows] at h; cases h; rfl
  | cons r rs ih =>
    rw [convert_rows] at h
    rw [convertRowsUntilError]
    rcases hc : convert_type r ts with pv | v
    · rw [hc] at h; cases h
    · rw [hc] at h
      rcases hr : convert_rows rs ts with pvs' | vs'
      · rw [hr] at h; cases h
      · rw [hr] at h
        cases h
        rw [ih hr]

theorem convert_rows_error_untilError {rs : List (List PyStr)} {ts : List ColType}
    {pvs : List Row} (h : convert_rows rs ts = .error pvs) :
    pvs = convertRowsUntilError rs ts := by
  induction rs generalizing pvs with
  | nil => rw [convert_rows] at h; cases h
  | cons r rs ih =>
    rw [convert_rows] at h
    rw [convertRowsUntilError]
    rcases hc : convert_type r ts with pv | v
    · rw [hc] at h; cases h; rfl
    · rw [hc] at h
      rcases hr : convert_rows rs ts with pvs' | vs'
      · rw [hr] at h
        cases h
        rw [ih hr]
      · rw [hr] at h; cases h

theorem inferTypes_forall₂ (schema : Schema) (rows : List (List PyStr)) :
    List.Forall₂ (fun (r : List PyStr) (v : Row) => r.length = v.length) rows
      (inferTypes schema rows).2 := by
  cases rows with
  | nil => exact List.Forall₂.nil
  | cons r rs =>
    rw [inferTypes, extract_datatypes]
    by_cases hg : schema.length ≠ r.length
    · rw [if_pos hg]
      exact mapStr_length_forall₂ (r :: rs)
    · rw [if_neg hg]
      rcases hr : convert_rows (r :: rs) (r.map get_type) with pvs | vs
      · show List.Forall₂ (fun (r : List PyStr) (v : Row) => r.length = v.length) (r :: rs) pvs
        rw [convert_rows_error_untilError hr]
        exact convertRowsUntilError_forall₂ (r :: rs) (r.map get_type)
      · show List.Forall₂ (fun (r : List PyStr) (v : Row) => r.length = v.length) (r :: rs) vs
        rw [convert_rows_ok_untilError hr]
        exact convertRowsUntilError_forall₂ (r :: rs) (r.map get_type)

theorem forallTwo_mem_right {α β : Type} {R : α → β → Prop} {b : β}
    {as : List α} {bs : List β} (h : List.Forall₂ R as bs) (hb : b ∈ bs) :
    ∃ a ∈ as, R a b := by
  induction h with
  | nil => simp at hb
  | @cons a b' as' bs' hr _ ih =>
    rcases List.mem_cons.mp hb with rfl | hb'
    · exact ⟨a, List.mem_cons_self a as', hr⟩
    · rcases ih hb' with ⟨a', ha', hR⟩
      exact ⟨a', List.mem_cons_of_mem a ha', hR⟩

theorem collectRows_mem {ls : List PyStr} {r : List PyStr}
    (h : r ∈ collectRows ls) : ∃ l ∈ ls, r = splitCells (pyStrip l) := by
  induction ls with
  | nil => rw [collectRows] at h; simp at h
  | cons l ls ih =>
    rw [collectRows] at h
    by_cases hs : startsWithPM (pyStrip l)
    · rw [if_pos hs] at h; simp at h
    · rw [if_neg hs] at h
      rcases List.mem_cons.mp h with rfl | h'
      · exact ⟨l, List.mem_cons_self l ls, rfl⟩
      · rcases ih h' with ⟨l', hl', he⟩
        exact ⟨l', List.mem_cons_of_mem l hl', he⟩

theorem endsSemi_dropLast_append {l : PyStr} (h : endsSemi l = true) :
    l.dropLast ++ [';'] = l := by
  have hne : l ≠ [] := by
    intro he
    rw [he] at h
    simp [endsSemi] at h
  have hl : l.getLast hne = ';' := by
    rw [endsSemi] at h
    rw [List.getLast?_eq_getLast l hne] at h
    simpa using h
  calc l.dropLast ++ [';'] = l.dropLast ++ [l.getLast hne] := by rw [hl]
    _ = l := List.dropLast_append_getLast hne

theorem pollLoop_no_cleanup (statuses : ℕ → PyStr) :
    ∀ (fuel i t : ℕ),
      countCall .deleteJob (pollLoop statuses fuel i t).2 = 0 ∧
      countCall .deleteResource (pollLoop statuses fuel i t).2 = 0 := by
  intro fuel
  induction fuel with
  | zero => intro i t; exact ⟨rfl, rfl⟩
  | succ fuel ih =>
    intro i t
    rw [pollLoop]
    by_cases h1 : statuses i = jsSucceeded
    · rw [if_pos h1]; exact ⟨rfl, rfl⟩
    · rw [if_neg h1]
      simp only []
      by_cases h2 : statuses (i + 1) = jsFailed
      · rw [if_pos h2]; exact ⟨rfl, rfl⟩
      · rw [if_neg h2]
        by_cases h3 : DEFAULT_CDE_JOB_TIMEOUT ≤ t + DEFAULT_POLL_WAIT
        · rw [if_pos h3]; exact ⟨rfl, rfl⟩
        · rw [if_neg h3]
          rcases ih (i + 1) (t + DEFAULT_POLL_WAIT) with ⟨hj, hr⟩
          constructor
          · simpa [countCall] using hj
          · simpa [countCall] using hr

theorem pollLoop_timeout (statuses : ℕ → PyStr)
    (h : ∀ i, statuses i ≠ jsSucceeded ∧ statuses i ≠ jsFailed) :
    ∀ (fuel t : ℕ), 1 ≤ fuel →
      DEFAULT_CDE_JOB_TIMEOUT ≤ t + fuel * DEFAULT_POLL_WAIT →
      ∀ i, (pollLoop statuses fuel i t).1 = .timedOut := by
  intro fuel
  induction fuel with
  | zero => intro t h1; omega
  | succ fuel ih =>
    intro t _ h2 i
    rw [pollLoop]
    rw [if_neg (h i).1]
    simp only []
    rw [if_neg (h (i + 1)).2]
    by_cases h3 : DEFAULT_CDE_JOB_TIMEOUT ≤ t + DEFAULT_POLL_WAIT
    · rw [if_pos h3]
    · rw [if_neg h3]
      have hf : 1 ≤ fuel := by
        rcases Nat.eq_zero_or_pos fuel with rfl | hp
        · exfalso
          apply h3
          simpa using h2
        · exact hp
      have ht : DEFAULT_CDE_JOB_TIMEOUT ≤ (t + DEFAULT_POLL_WAIT) + fuel * DEFAULT_POLL_WAIT := by
        have : t + (fuel + 1) * DEFAULT_POLL_WAIT
            = (t + DEFAULT_POLL_WAIT) + fuel * DEFAULT_POLL_WAIT := by ring
        rw [this] at h2
        exact h2
      exact ih (t + DEFAULT_POLL_WAIT) hf ht (i + 1)

theorem countCall_append (c : ApiCall) (l1 l2 : List ApiCall) :
    countCall c (l1 ++ l2) = countCall c l1 + countCall c l2 := by
  induction l1 with
  | nil => simp [countCall]
  | cons x xs ih => simp [countCall, ih, Nat.add_assoc]

/-! ### Claim theorems -/

/-- Claim C4: parsing a box-drawn table with header `A|B|C` and single
data row `1|true|x` yields the schema typing `A` as number, `B` as
boolean, `C` as string, and the single row `[1.0, true, "x"]`. -/
theorem C4_parse_typed_table :
    parse_query_result
        (["+---+", "| A | B | C |", "+---+", "| 1 | true | x |", "+---+"].map
          String.toList)
      = ([⟨"A".toList, .number, false⟩, ⟨"B".toList, .boolean, false⟩,
          ⟨"C".toList, .string, false⟩],
         [[.num 1, .bool true, .str "x".toList]]) := by decide

/-- Claim C5, counterexample: the claim says any case-insensitive spelling
of `true`/`false` (e.g. `TRUE`) is classified boolean, but `get_type`
compares against the four exact spellings only, so `TRUE` is classified
string. -/
theorem C5_counterexample :
    get_type "TRUE".toList = .string ∧ get_type "TRUE".toList ≠ .boolean := by
  decide

/-- Claim C5 as amended: a first-row cell is classified number exactly
when it consists only of numeric characters; it is classified boolean
exactly when it is one of the four exact spellings `true`, `false`,
`True`, `False` (case-sensitive — `TRUE`, `tRuE` etc. are not
recognised); every other value is classified string. -/
theorem C5_amended_classification (s : PyStr) :
    (get_type s = .number ↔ is_number s = true)
    ∧ (get_type s = .boolean ↔
        (s = "true".toList ∨ s = "false".toList ∨ s = "True".toList ∨ s = "False".toList))
    ∧ (get_type s = .string ↔
        (is_number s = false ∧
          ¬(s = "true".toList ∨ s = "false".toList ∨ s = "True".toList ∨ s = "False".toList))) := by
  by_cases h4 : s = "true".toList ∨ s = "false".toList ∨ s = "True".toList ∨ s = "False".toList
  · rcases h4 with rfl | rfl | rfl | rfl <;> exact ⟨by decide, by decide, by decide⟩
  · have hl : is_logical s = false := by
      rcases Bool.eq_false_or_eq_true (is_logical s) with hIl | hIl
      · exfalso
        apply h4
        rw [is_logical] at hIl
        simp only [Bool.or_eq_true, beq_iff_eq] at hIl
        tauto
      · exact hIl
    rcases Bool.eq_false_or_eq_true (is_number s) with hn | hn
    · have hg : get_type s = .number := by
        rw [get_type, if_pos hn]
      rw [hg]
      exact ⟨⟨fun _ => hn, fun _ => rfl⟩,
             ⟨fun h => ColType.noConfusion h, fun hf => absurd hf h4⟩,
             ⟨fun h => ColType.noConfusion h,
              fun hc => absurd hc.1 (by rw [hn]; decide)⟩⟩
    · have hg : get_type s = .string := by
        rw [get_type, if_neg ?hna, if_neg ?hnb]
        case hna => rw [hn]; decide
        case hnb => rw [hl]; decide
      rw [hg]
      exact ⟨⟨fun h => ColType.noConfusion h, fun htrue => absurd htrue (by rw [hn]; decide)⟩,
             ⟨fun h => ColType.noConfusion h, fun hf => absurd hf h4⟩,
             ⟨fun _ => ⟨hn, h4⟩, fun _ => rfl⟩⟩

/-- Claim C6: iterating `fetchone` on an `N`-row result returns the `N`
rows in order and then the `None` sentinel on every further call — the
value of the `k`-th call is exactly the `k`-th row when one exists and
`none` otherwise. -/
theorem C6_fetchone_sequence (rows : List Row) (k : ℕ) :
    (fetchone (fetchState (some rows) k)).1 = rows[k]? := by
  induction k generalizing rows with
  | zero => cases rows <;> simp [fetchState, fetchone]
  | succ k ih =>
    cases rows with
    | nil =>
      show (fetchone (fetchState (some []) k)).1 = _
      rw [ih []]
      simp
    | cons r rs =>
      show (fetchone (fetchState (some rs) k)).1 = _
      rw [ih rs]
      simp

/-- Claim C10: `fetchall` and `fetchone` share the one live row store:
after `k` `fetchone` calls on an `N`-row result, `fetchall` (reading the
same store the pops mutate) yields exactly the `N - k` not-yet-consumed
rows, in order. -/
theorem C10_fetchall_live_sequence (rows : List Row) (k : ℕ) :
    fetchall (fetchState (some rows) k) = some (rows.drop k)
    ∧ (rows.drop k).length = rows.length - k := by
  refine ⟨?_, List.length_drop k rows⟩
  induction k generalizing rows with
  | zero => rfl
  | succ k ih =>
    cases rows with
    | nil =>
      show fetchall (fetchState (some []) k) = _
      rw [ih []]
      simp
    | cons r rs =>
      show fetchall (fetchState (some rs) k) = _
      rw [ih rs]
      rfl

/-- Claim C8: the connection wrapper's `execute` removes exactly one
trailing semicolon from the whitespace-trimmed SQL when the trimmed text
ends in one (appending the semicolon back restores the trimmed text), and
passes text not ending in a semicolon through completely unchanged. -/
theorem C8_semicolon_stripping (sql : PyStr) :
    wrapper_execute_sql sql ++ (if endsSemi (pyStrip sql) then [';'] else [])
      = (if endsSemi (pyStrip sql) then pyStrip sql else sql) := by
  by_cases h : endsSemi (pyStrip sql) = true
  · rw [if_pos h, if_pos h, wrapper_execute_sql, if_pos h]
    exact endsSemi_dropLast_append h
  · rw [if_neg h, if_neg h, wrapper_execute_sql, if_neg h]
    simp

/-- Claim C9: `_fix_binding` routes Python booleans through the numeric
branch (`bool` is a subclass of `int`, so `isinstance(value, NUMBERS)`
holds): `True` coerces to the float `1.0` and `False` to `0.0`, not to a
quoted `'True'`/`'False'` text literal. -/
theorem C9_bool_binding :
    fix_binding (.pyBool true) = .pyFloatV 1
    ∧ fix_binding (.pyBool false) = .pyFloatV 0
    ∧ fix_binding (.pyBool true) ≠ .pyString (quoted "True".toList) := by
  decide

/-- Claim C1, counterexample: with a status sequence that reports `failed`,
`execute` raises the job-failure error and attempts neither `delete_job`
nor `delete_resource` — cleanup is not attempted on this terminal state,
contradicting "attempted exactly once regardless of which terminal state
was reached" (the source has no `try/finally` around cleanup). -/
theorem C1_counterexample :
    (executeRun (fun _ => jsFailed) [] true true 40).outcome = .jobFailed jsFailed
    ∧ countCall .deleteJob (executeRun (fun _ => jsFailed) [] true true 40).calls = 0
    ∧ countCall .deleteResource (executeRun (fun _ => jsFailed) [] true true 40).calls = 0 := by
  decide

/-- Claim C1 as amended: cleanup is attempted exactly once if and only if
the run reaches the success outcome (the result set having been stored
first): `delete_job` is attempted exactly once when the cursor's result
set was populated and never otherwise (so never on job failure or
timeout), `delete_resource` additionally requires `delete_job` not to have
raised, and `execute` returns normally exactly when the success path was
reached and both cleanup calls succeeded — a cleanup failure on the
success path escapes as an error (after the results were populated)
rather than being swallowed. -/
theorem C1_amended_cleanup (statuses : ℕ → PyStr) (logLines : List PyStr)
    (djOk drOk : Bool) (fuel : ℕ) :
    countCall .deleteJob (executeRun statuses logLines djOk drOk fuel).calls
        = (if (executeRun statuses logLines djOk drOk fuel).resultSet.isSome then 1 else 0)
    ∧ countCall .deleteResource (executeRun statuses logLines djOk drOk fuel).calls
        = (if (executeRun statuses logLines djOk drOk fuel).resultSet.isSome && djOk then 1 else 0)
    ∧ ((executeRun statuses logLines djOk drOk fuel).outcome = .success ↔
        ((executeRun statuses logLines djOk drOk fuel).resultSet.isSome = true
          ∧ djOk = true ∧ drOk = true)) := by
  unfold executeRun
  rcases hpl : pollLoop statuses fuel 0 0 with ⟨pr, cs⟩
  have h1 : countCall .deleteJob cs = 0 := by
    have h := (pollLoop_no_cleanup statuses fuel 0 0).1
    rw [hpl] at h
    exact h
  have h2 : countCall .deleteResource cs = 0 := by
    have h := (pollLoop_no_cleanup statuses fuel 0 0).2
    rw [hpl] at h
    exact h
  cases pr with
  | jobFailed p => simp [countCall, countCall_append, h1, h2]
  | timedOut => simp [countCall, countCall_append, h1, h2]
  | fuelOut => simp [countCall, countCall_append, h1, h2]
  | succeeded =>
    by_cases hdj : djOk = true
    · by_cases hdr : drOk = true
      · simp [hdj, hdr, countCall, countCall_append, h1, h2]
      · simp [hdj, hdr, countCall, countCall_append, h1, h2]
    · simp [hdj, countCall, countCall_append, h1, h2]

/-- Claim C2, counterexample: header `A`, data rows `1` and `x`; the
column is inferred as number from the first row and `float("x")` then
fails on the second row, but `parse_query_result` catches the exception
(`except Exception: logger.error(...)`) and returns normally with a
partially converted result set — first row converted to `1.0`, second row
left as the raw string — rather than propagating the error and keeping no
partial result. -/
theorem C2_counterexample :
    parse_query_result (["+-", "| A |", "+-", "| 1 |", "| x |", "+-"].map String.toList)
      = ([⟨"A".toList, .string, false⟩], [[.num 1], [.str "x".toList]]) := by
  decide

/-- Claim C2 as amended: when a later row's value cannot be converted to
the type inferred from the first row, the raised conversion error is
caught inside table parsing, which returns normally: the schema is kept
as it was before inference (all columns still `string`) and the kept rows
are exactly the partially converted state the conversion loop left behind
(rows before the failing one fully converted, the failing row converted
up to the failing cell, later rows untouched), with every row keeping its
cell count. -/
theorem C2_amended_caught (schema : Schema) (rows : List (List PyStr))
    (s' : Schema) (pv : List Row)
    (h : extract_datatypes schema rows = .error (s', pv)) :
    s' = schema
    ∧ inferTypes schema rows = (schema, pv)
    ∧ pv = convertRowsUntilError rows ((rows.headD []).map get_type)
    ∧ List.Forall₂ (fun (r : List PyStr) (v : Row) => r.length = v.length) rows pv := by
  cases rows with
  | nil =>
    rw [extract_datatypes] at h
    cases h
    exact ⟨rfl, rfl, rfl, List.Forall₂.nil⟩
  | cons r rs =>
    rw [extract_datatypes] at h
    by_cases hg : schema.length ≠ r.length
    · rw [if_pos hg] at h
      exact Except.noConfusion h
    · rw [if_neg hg] at h
      rcases hr : convert_rows (r :: rs) (r.map get_type) with pvs | vs
      · rw [hr] at h
        cases h
        refine ⟨rfl, ?_, ?_, ?_⟩
        · rw [inferTypes, extract_datatypes, if_neg hg, hr]
        · exact convert_rows_error_untilError hr
        · have hfa := convertRowsUntilError_forall₂ (r :: rs) (r.map get_type)
          rw [← convert_rows_error_untilError hr] at hfa
          exact hfa
      · rw [hr] at h
        exact Except.noConfusion h

/-- Claim C2 amended, witness: the concrete header-`A`, rows-`1`/`x`
instance, with the conversion failure on the second row. -/
theorem C2_amended_caught_witness :
    ([⟨"A".toList, ColType.string, false⟩] : Schema) = [⟨"A".toList, ColType.string, false⟩]
    ∧ inferTypes [⟨"A".toList, ColType.string, false⟩] [["1".toList], ["x".toList]]
        = ([⟨"A".toList, ColType.string, false⟩], [[.num 1], [.str "x".toList]])
    ∧ ([[Value.num 1], [Value.str "x".toList]] : List Row)
        = convertRowsUntilError [["1".toList], ["x".toList]]
            (([["1".toList], ["x".toList]].headD []).map get_type)
    ∧ List.Forall₂ (fun (r : List PyStr) (v : Row) => r.length = v.length)
        [["1".toList], ["x".toList]] [[Value.num 1], [Value.str "x".toList]] :=
  C2_amended_caught [⟨"A".toList, ColType.string, false⟩] [["1".toList], ["x".toList]]
    [⟨"A".toList, ColType.string, false⟩] [[Value.num 1], [Value.str "x".toList]] (by rfl)

/-- Claim C3, counterexample: header `| A | B |` (two columns) with data
line `|  | x |` containing a whitespace-only cell: the parser's
empty-fragment filter drops that cell, so the returned row has one value,
not two — rows with empty or whitespace-only cells do NOT have as many
values as the header has column names. -/
theorem C3_counterexample :
    ¬ ∀ row ∈ (parse_query_result
          (["+-", "| A | B |", "+-", "|  | x |", "+-"].map String.toList)).2,
        row.length = (parse_query_result
          (["+-", "| A | B |", "+-", "|  | x |", "+-"].map String.toList)).1.length := by
  decide

/-- Claim C3 as amended: every returned data row has exactly as many
values as its raw line has non-empty (after trimming) pipe-delimited
cells — empty or whitespace-only cells are dropped, so a row's value
count equals the header's column count only when none of its cells are
empty/whitespace-only. -/
theorem C3_amended_row_cells (lines : List PyStr) (row : Row)
    (h : row ∈ (parse_query_result lines).2) :
    ∃ l ∈ lines, row.length = (splitCells (pyStrip l)).length := by
  rw [parse_query_result] at h
  rcases hf : lines.findIdx? isSepLine with _ | k
  · simp only [hf] at h
    simp at h
  · simp only [hf] at h
    by_cases hk : k + 1 = lines.length
    · rw [if_pos hk] at h
      simp at h
    · rw [if_neg hk] at h
      by_cases hs : (headerSchema (lines.getD (k + 1) [])).length = 0
      · rw [if_pos hs] at h
        simp at h
      · rw [if_neg hs] at h
        by_cases hr : 0 < (collectRows (lines.drop (k + 3))).length
        · rw [if_pos hr] at h
          have h2 := inferTypes_forall₂ (headerSchema (lines.getD (k + 1) []))
            (collectRows (lines.drop (k + 3)))
          rcases forallTwo_mem_right h2 h with ⟨raw, hraw, hlen⟩
          rcases collectRows_mem hraw with ⟨l, hl, rfl⟩
          exact ⟨l, List.drop_subset _ _ hl, hlen.symm⟩
        · rw [if_neg hr] at h
          simp at h

/-- Claim C3 amended, witness: in the whitespace-cell example the single
returned row has one value, matching the one non-empty cell of its line. -/
theorem C3_amended_row_cells_witness :
    ∃ l ∈ (["+-", "| A | B |", "+-", "|  | x |", "+-"].map String.toList),
      ([Value.str "x".toList] : Row).length = (splitCells (pyStrip l)).length :=
  C3_amended_row_cells (["+-", "| A | B |", "+-", "|  | x |", "+-"].map String.toList)
    [Value.str "x".toList] (by decide)

/-- Claim C7: when the polled status never becomes `succeeded` or
`failed`, the polling loop accumulates `DEFAULT_POLL_WAIT` per iteration
and `execute` raises the timeout error carrying the configured ceiling
`DEFAULT_CDE_JOB_TIMEOUT` once the accumulated wait reaches it, instead
of polling forever (any fuel covering the 30 bounded iterations gives the
same outcome). -/
theorem C7_timeout (statuses : ℕ → PyStr) (logLines : List PyStr)
    (djOk drOk : Bool) (fuel : ℕ)
    (hterm : ∀ i, statuses i ≠ jsSucceeded ∧ statuses i ≠ jsFailed)
    (hfuel : 30 ≤ fuel) :
    (executeRun statuses logLines djOk drOk fuel).outcome
      = .timedOut DEFAULT_CDE_JOB_TIMEOUT := by
  have hp := pollLoop_timeout statuses hterm fuel 0 (by omega)
    (by rw [DEFAULT_CDE_JOB_TIMEOUT, DEFAULT_POLL_WAIT]; omega) 0
  unfold executeRun
  rcases hpl : pollLoop statuses fuel 0 0 with ⟨pr, cs⟩
  rw [hpl] at hp
  have hpr : pr = .timedOut := hp
  subst hpr
  rfl

/-- Claim C7, witness: a status sequence stuck at `running` times out
with the ceiling value. -/
theorem C7_timeout_witness :
    (executeRun (fun _ => "running".toList) [] true true 30).outcome
      = .timedOut DEFAULT_CDE_JOB_TIMEOUT :=
  C7_timeout (fun _ => "running".toList) [] true true 30
    (fun _ => ⟨(by decide : "running".toList ≠ jsSucceeded),
               (by decide : "running".toList ≠ jsFailed)⟩) (by decide)

end SparkCDE
